import Mathlib

/-!
Verification of the multi-instance coordination plane of the codebridge-mcp
VSCode extension: a shallow embedding, in Lean 4, of the registry, routing,
role-detection, aggregation and leader-election logic found in
src/coordination/master.ts, src/coordination/coordinator.ts,
src/coordination/worker.ts and the leader-election / tool-executor modules,
together with proofs and refutations of the specified properties.

Modelling conventions:
- JavaScript timestamps and numeric scores (IEEE doubles holding integral
  millisecond counts) are modelled as `Int`.
- A JavaScript `Map` is modelled as an association list `List (String × α)`
  with the insertion-order semantics of `Map.set` / `Map.delete`.
- Asynchronous HTTP outcomes (a settled promise that was caught to `null`
  on failure) are modelled as `Option` values supplied as parameters.
- `String.localeCompare` is modelled as code-point lexicographic comparison.
-/

/-- The `'active' | 'idle'` status union from types.ts. -/
inductive WorkerStatus where
  | active
  | idle
deriving DecidableEq, Repr

/-- `enum InstanceMode` from types.ts. -/
inductive InstanceMode where
  | AUTO
  | MASTER
  | WORKER
  | STANDALONE
deriving DecidableEq, Repr

/-- `enum MasterStatus` from types.ts. -/
inductive MasterStatus where
  | HEALTHY
  | DEGRADED
  | UNREACHABLE
  | SHUTDOWN
deriving DecidableEq, Repr

/-- `interface WorkerInfo` from types.ts. -/
structure WorkerInfo where
  instanceId : String
  workspaceName : String
  workspacePath : String
  port : Nat
  capabilities : List String
  lastSeen : Int
  status : WorkerStatus
  registeredAt : Int
  version : String
deriving DecidableEq, Repr

/-- `interface CoordinationConfig` from types.ts (`mode?:` is an `Option`). -/
structure CoordinationConfig where
  enabled : Bool
  masterPort : Nat
  workerPortRange : Nat × Nat
  heartbeatInterval : Int
  registrationTimeout : Int
  mode : Option InstanceMode
deriving DecidableEq, Repr

/-- `interface RegistrationRequest` from types.ts. -/
structure RegistrationRequest where
  instanceId : String
  workspaceName : String
  workspacePath : String
  port : Nat
  capabilities : List String
  version : String
deriving DecidableEq, Repr

/-- `interface RegistrationResponse` from types.ts. -/
structure RegistrationResponse where
  success : Bool
  instanceId : String
  masterInstanceId : String
  heartbeatInterval : Int
  error : Option String
deriving DecidableEq, Repr

/-- `interface HeartbeatRequest` from types.ts. -/
structure HeartbeatRequest where
  instanceId : String
  status : WorkerStatus
  timestamp : Int
deriving DecidableEq, Repr

/-- `interface HeartbeatResponse` from types.ts. -/
structure HeartbeatResponse where
  success : Bool
  masterStatus : MasterStatus
  shouldReregister : Option Bool
deriving DecidableEq, Repr

/-- The registry-relevant fields of `interface MasterState` from types.ts
(`activeSessions`, `toolCallHistory` and `performanceMetrics` are never read
or written by the registration, heartbeat, reaping or routing operations
verified here and are omitted from the projection). -/
structure MasterState where
  registeredWorkers : List (String × WorkerInfo)
  workspaceRouting : List (String × String)
  startedAt : Int
  instanceId : String
deriving DecidableEq, Repr

/-- `interface ElectionCandidate` from types.ts (the `workerInfo` back
pointer is kept; `capabilities` and `lastSeen` are carried verbatim). -/
structure ElectionCandidate where
  instanceId : String
  workspaceScore : Int
  uptime : Int
  resourceUsage : Int
  capabilities : List String
  lastSeen : Int
  workerInfo : WorkerInfo
deriving DecidableEq, Repr

/-- One entry of a `ToolResult.content` array (toolExecutor.ts); only the
`type` tag and the optional `text` payload are relevant to the merges. -/
structure ContentItem where
  type : String
  text : Option String
deriving DecidableEq, Repr

/-- `interface ToolResult` from toolExecutor.ts. -/
structure ToolResult where
  content : List ContentItem
deriving DecidableEq, Repr

/-- The two routing-relevant optional tool-call parameters that
`MasterCoordinator.findTargetWorker` inspects (`params.workspace`,
`params.uri`). -/
structure ToolCallParams where
  workspace : Option String
  uri : Option String
deriving DecidableEq, Repr

/-! ## Association-list model of the JavaScript `Map` -/

/-- `Map.get`: value of the first (unique) entry with the given key. -/
def mapGet {α : Type} (m : List (String × α)) (k : String) : Option α :=
  (m.find? (fun p => p.1 == k)).map (·.2)

/-- `Map.has`. -/
def mapContains {α : Type} (m : List (String × α)) (k : String) : Bool :=
  m.any (fun p => p.1 == k)

/-- `Map.set`: replace in place when the key is present (JavaScript keeps the
original insertion position), append otherwise. -/
def mapSet {α : Type} (m : List (String × α)) (k : String) (v : α) :
    List (String × α) :=
  if mapContains m k then m.map (fun p => if p.1 == k then (k, v) else p)
  else m ++ [(k, v)]

/-- `Map.delete`. -/
def mapDelete {α : Type} (m : List (String × α)) (k : String) :
    List (String × α) :=
  m.filter (fun p => p.1 != k)

/-! ## Master registry operations (master.ts) -/

/-- `createMasterState` from types.ts (`Date.now()` passed as `startedAt`). -/
def createMasterState (instanceId : String) (startedAt : Int) : MasterState :=
  { registeredWorkers := []
    workspaceRouting := []
    startedAt := startedAt
    instanceId := instanceId }

/-- `MasterCoordinator.updateWorkspaceRouting` (master.ts line 1140):
`this.state.workspaceRouting.set(worker.workspacePath, worker.instanceId)`. -/
def updateWorkspaceRouting (s : MasterState) (worker : WorkerInfo) :
    MasterState :=
  { s with workspaceRouting :=
      mapSet s.workspaceRouting worker.workspacePath worker.instanceId }

/-- `MasterCoordinator.cleanupWorkspaceRouting` (master.ts line 1144):
delete every routing entry whose value is the given instance id. -/
def cleanupWorkspaceRouting (s : MasterState) (instanceId : String) :
    MasterState :=
  { s with workspaceRouting :=
      s.workspaceRouting.filter (fun p => p.2 != instanceId) }

/-- `MasterCoordinator.registerWorker` (master.ts lines 267-300). Both
`Date.now()` reads inside the `workerInfo` literal are modelled by the single
parameter `now`; `heartbeatInterval` comes from the coordination config. The
function performs no validation and unconditionally returns success. -/
def registerWorker (s : MasterState) (req : RegistrationRequest) (now : Int)
    (heartbeatInterval : Int) : MasterState × RegistrationResponse :=
  let workerInfo : WorkerInfo :=
    { instanceId := req.instanceId
      workspaceName := req.workspaceName
      workspacePath := req.workspacePath
      port := req.port
      capabilities := req.capabilities
      lastSeen := now
      status := WorkerStatus.active
      registeredAt := now
      version := req.version }
  let s1 : MasterState :=
    { s with registeredWorkers :=
        mapSet s.registeredWorkers req.instanceId workerInfo }
  let s2 := updateWorkspaceRouting s1 workerInfo
  (s2,
    { success := true
      instanceId := req.instanceId
      masterInstanceId := s.instanceId
      heartbeatInterval := heartbeatInterval
      error := none })

/-- `MasterCoordinator.deregisterWorker` (master.ts lines 302-321): if the
worker is registered, delete its record and clean up the routing entries in
the same step; otherwise do nothing. -/
def deregisterWorker (s : MasterState) (instanceId : String) : MasterState :=
  match mapGet s.registeredWorkers instanceId with
  | none => s
  | some _ =>
      cleanupWorkspaceRouting
        { s with registeredWorkers := mapDelete s.registeredWorkers instanceId }
        instanceId

/-- `MasterCoordinator.handleHeartbeat` (master.ts lines 323-344): unknown id
replies `shouldReregister`; otherwise `lastSeen` and `status` are overwritten
from the request. -/
def handleHeartbeat (s : MasterState) (instanceId : String)
    (req : HeartbeatRequest) : MasterState × HeartbeatResponse :=
  match mapGet s.registeredWorkers instanceId with
  | none =>
      (s, { success := false
            masterStatus := MasterStatus.HEALTHY
            shouldReregister := some true })
  | some worker =>
      let updated : WorkerInfo :=
        { worker with lastSeen := req.timestamp, status := req.status }
      ({ s with registeredWorkers :=
            mapSet s.registeredWorkers instanceId updated },
        { success := true
          masterStatus := MasterStatus.HEALTHY
          shouldReregister := none })

/-- `MasterCoordinator.checkWorkerHeartbeats` (master.ts lines 352-366):
deregister every worker whose `lastSeen` is more than three heartbeat
intervals in the past. -/
def checkWorkerHeartbeats (s : MasterState) (now : Int)
    (heartbeatInterval : Int) : MasterState :=
  s.registeredWorkers.foldl
    (fun acc p =>
      if now - p.2.lastSeen > heartbeatInterval * 3 then
        deregisterWorker acc p.1
      else acc)
    s

/-- One observable mutation of the master registry state. -/
inductive MasterOp where
  | register (req : RegistrationRequest) (now : Int) (heartbeatInterval : Int)
  | deregister (instanceId : String)
  | heartbeat (instanceId : String) (req : HeartbeatRequest)
  | reap (now : Int) (heartbeatInterval : Int)

/-- Apply one registry operation (responses discarded). -/
def applyMasterOp (s : MasterState) : MasterOp → MasterState
  | MasterOp.register req now hb => (registerWorker s req now hb).1
  | MasterOp.deregister id => deregisterWorker s id
  | MasterOp.heartbeat id req => (handleHeartbeat s id req).1
  | MasterOp.reap now hb => checkWorkerHeartbeats s now hb

/-- Run a sequence of registry operations from a fresh master state. -/
def execMasterOps (instanceId : String) (startedAt : Int)
    (ops : List MasterOp) : MasterState :=
  ops.foldl applyMasterOp (createMasterState instanceId startedAt)

/-- Invariant M1: every value of `workspaceRouting` is a key of
`registeredWorkers`. -/
def invariantM1 (s : MasterState) : Prop :=
  ∀ p ∈ s.workspaceRouting, mapContains s.registeredWorkers p.2 = true

instance (s : MasterState) : Decidable (invariantM1 s) :=
  List.decidableBAll _ _

/-! ## Role detection (coordinator.ts, `CoordinationDetector.detectMode`) -/

/-- The auto-detection tail of `detectMode` (coordinator.ts lines 154-195),
reached only when no mode is forced. The probe outcome of
`checkMasterHealth` and the boolean decision of
`shouldInitiateElectionForDegradedMaster` (both asynchronous I/O) are
supplied as parameters. -/
def detectModeAuto (config : CoordinationConfig) (masterStatus : MasterStatus)
    (shouldInitiateElection : Bool) : InstanceMode :=
  if !config.enabled then InstanceMode.STANDALONE
  else
    match masterStatus with
    | MasterStatus.HEALTHY => InstanceMode.WORKER
    | MasterStatus.UNREACHABLE => InstanceMode.MASTER
    | _ =>
        if shouldInitiateElection then InstanceMode.MASTER
        else InstanceMode.WORKER

/-- `CoordinationDetector.detectMode` (coordinator.ts lines 147-195). The
first check is the forced-mode rule: `if (this.config.mode &&
this.config.mode !== InstanceMode.AUTO) return this.config.mode;`; only
afterwards is `config.enabled` consulted. -/
def detectMode (config : CoordinationConfig) (masterStatus : MasterStatus)
    (shouldInitiateElection : Bool) : InstanceMode :=
  match config.mode with
  | some m =>
      if m ≠ InstanceMode.AUTO then m
      else detectModeAuto config masterStatus shouldInitiateElection
  | none => detectModeAuto config masterStatus shouldInitiateElection

/-! ## Workspace routing (master.ts, `findTargetWorker`) -/

/-- Value of one hexadecimal digit, as used by `decodeURIComponent`. -/
def hexDigitVal (c : Char) : Option Nat :=
  if '0' ≤ c ∧ c ≤ '9' then some (c.toNat - 48)
  else if 'a' ≤ c ∧ c ≤ 'f' then some (c.toNat - 87)
  else if 'A' ≤ c ∧ c ≤ 'F' then some (c.toNat - 55)
  else none

/-- Node `decodeURIComponent`, modelled at the single-byte (ASCII) level:
each `%XX` escape becomes the character with that code; a malformed escape
yields `none` (the thrown `URIError`, caught by `isFileInWorkspace`). -/
def percentDecode : List Char → Option (List Char)
  | [] => some []
  | '%' :: c1 :: c2 :: rest => do
      let h1 ← hexDigitVal c1
      let h2 ← hexDigitVal c2
      let tail ← percentDecode rest
      pure (Char.ofNat (16 * h1 + h2) :: tail)
  | '%' :: _ => none
  | c :: rest => (percentDecode rest).map (c :: ·)

/-- `String.prototype.startsWith`, stated on the character lists (the core
`String.startsWith` is byte-position based and is avoided so that concrete
routing states evaluate by `decide`). -/
def strStartsWith (s : String) (pre : String) : Bool :=
  pre.data.isPrefixOf s.data

/-- `String.prototype.split` on a one-character separator, at the
character-list level. -/
def splitOnChar (sep : Char) : List Char → List (List Char)
  | [] => [[]]
  | c :: rest =>
      let r := splitOnChar sep rest
      if c = sep then [] :: r
      else
        match r with
        | [] => [[c]]
        | h :: t => (c :: h) :: t

/-- Node `path.resolve` on a single argument, modelled for absolute POSIX
paths (the case exercised by workspace routing): collapse empty, `.` and
`..` segments. Resolution of a relative path depends on the process working
directory and is outside this pure model; such a path is returned as is. -/
def pathResolve (p : String) : String :=
  if strStartsWith p "/" then
    let comps := (splitOnChar '/' p.data).foldl
      (fun acc c =>
        if c.isEmpty ∨ c = ['.'] then acc
        else if c = ['.', '.'] then acc.dropLast
        else acc ++ [c])
      []
    String.mk ('/' :: List.intercalate ['/'] comps)
  else p

/-- `MasterCoordinator.isFileInWorkspace` (master.ts lines 491-511): strip a
`file://` scheme and percent-decode, normalise both paths, then test that the
file path starts with the workspace path; any decoding error is caught and
yields `false`. -/
def isFileInWorkspace (fileUri : String) (workspacePath : String) : Bool :=
  let decoded : Option (List Char) :=
    if strStartsWith fileUri "file://" then percentDecode (fileUri.data.drop 7)
    else some fileUri.data
  match decoded with
  | none => false
  | some filePathChars =>
      strStartsWith (pathResolve (String.mk filePathChars))
        (pathResolve workspacePath)

/-- `MasterCoordinator.findActiveWorker` (master.ts lines 482-489): the
`status === 'active'` workers sorted by descending `lastSeen`, first one if
any. The JavaScript comparator `(a, b) => b.lastSeen - a.lastSeen` is the
stable descending sort modelled by `mergeSort`. -/
def findActiveWorker (s : MasterState) : Option WorkerInfo :=
  (((s.registeredWorkers.map (·.2)).filter
      (fun w => w.status == WorkerStatus.active)).mergeSort
    (fun a b => b.lastSeen ≤ a.lastSeen)).head?

/-- `MasterCoordinator.findTargetWorker` (master.ts lines 418-480). With an
explicit `workspace` parameter: first worker matching by name or path, or
`none` (local fallback). Otherwise with a `uri` parameter: the FIRST worker
in registry iteration order whose workspace contains the file; when no worker
matches, fall through to the most recently active worker, then to any
worker. -/
def findTargetWorker (s : MasterState) (params : ToolCallParams) :
    Option WorkerInfo :=
  match params.workspace with
  | some targetWorkspace =>
      (s.registeredWorkers.find?
        (fun p =>
          p.2.workspaceName == targetWorkspace ||
          p.2.workspacePath == targetWorkspace)).map (·.2)
  | none =>
      let byUri : Option WorkerInfo :=
        match params.uri with
        | some fileUri =>
            (s.registeredWorkers.find?
              (fun p => isFileInWorkspace fileUri p.2.workspacePath)).map (·.2)
        | none => none
      match byUri with
      | some w => some w
      | none =>
          match findActiveWorker s with
          | some w => some w
          | none => (s.registeredWorkers.head?).map (·.2)

/-! ## Aggregated fan-out and result merging (master.ts) -/

/-- JavaScript `String.prototype.includes`. -/
def strIncludes (s : String) (sub : String) : Bool :=
  decide (sub.data <:+: s.data)

/-- The truthy `result?.content?.[0]?.text` access guarding every merge loop
body: the text of the first content item, provided it is non-empty. -/
def firstText (r : ToolResult) : Option String :=
  match r.content.head? with
  | none => none
  | some item =>
      match item.text with
      | none => none
      | some t => if t.isEmpty then none else some t

/-- The regular expression `/Found (\d+) open files/` applied at one
position: the digits when the pattern matches here. -/
def matchFoundAt (l : List Char) : Option String :=
  if "Found ".data.isPrefixOf l then
    let after := l.drop 6
    let digits := after.takeWhile Char.isDigit
    if digits.isEmpty then none
    else if " open files".data.isPrefixOf (after.drop digits.length) then
      some digits.asString
    else none
  else none

/-- Leftmost match of `/Found (\d+) open files/`, as used by
`mergeOpenFilesResults`. -/
def matchFoundOpenFiles : List Char → Option String
  | [] => none
  | c :: rest =>
      match matchFoundAt (c :: rest) with
      | some digits => some digits
      | none => matchFoundOpenFiles rest

/-- `MasterCoordinator.mergeOpenFilesResults` (master.ts lines 632-670). -/
def mergeOpenFilesResults (results : List ToolResult) : ToolResult :=
  let step := fun (acc : List String × List String) (r : ToolResult) =>
    match firstText r with
    | none => acc
    | some text =>
        if strIncludes text "Found " && strIncludes text "open files:" then
          let lines :=
            (text.splitOn "\n").filter (fun line => strIncludes line "URI:")
          let files := acc.1 ++ lines
          match matchFoundOpenFiles text.data with
          | some n => (files, acc.2 ++ ["Workspace with " ++ n ++ " files"])
          | none => (files, acc.2)
        else acc
  let folded := results.foldl step ([], [])
  let allFiles := folded.1
  let workspaceNames := folded.2
  if allFiles.isEmpty then
    { content := [{ type := "text"
                    text := some
                      "No files are currently open across all instances" }] }
  else
    { content := [{ type := "text"
                    text := some
                      ("Found " ++ toString allFiles.length ++
                        " open files across " ++
                        toString workspaceNames.length ++ " workspaces:\n\n" ++
                        String.intercalate "\n" allFiles) }] }

/-- `MasterCoordinator.mergeWorkspaceSymbolsResults` (master.ts lines
672-705): concatenate the `**`-prefixed lines, deduplicate keeping first
occurrences (the JavaScript `Set`), cap at 100. -/
def mergeWorkspaceSymbolsResults (results : List ToolResult) : ToolResult :=
  let allSymbols := results.foldl
    (fun acc r =>
      match firstText r with
      | none => acc
      | some text =>
          acc ++ (text.splitOn "\n").filter (fun line => line.startsWith "**"))
    []
  if allSymbols.isEmpty then
    results.headD
      { content := [{ type := "text"
                      text := some
                        "No symbols found across all workspaces" }] }
  else
    let uniqueSymbols := allSymbols.eraseDups.take 100
    { content := [{ type := "text"
                    text := some
                      ("Found " ++ toString uniqueSymbols.length ++
                        " symbols across all workspaces:\n\n" ++
                        String.intercalate "\n" uniqueSymbols) }] }

/-- `MasterCoordinator.mergeSearchResults` (master.ts lines 707-738). -/
def mergeSearchResults (results : List ToolResult) : ToolResult :=
  let allResults := results.foldl
    (fun acc r =>
      match firstText r with
      | none => acc
      | some text =>
          acc ++ (text.splitOn "\n").filter (fun line => !line.trim.isEmpty))
    []
  if allResults.isEmpty then
    results.headD
      { content := [{ type := "text"
                      text := some
                        "No search results found across all workspaces" }] }
  else
    { content := [{ type := "text"
                    text := some
                      ("Search results from all workspaces:\n\n" ++
                        String.intercalate "\n" allResults) }] }

/-- `MasterCoordinator.mergeWorkspacesResults` (master.ts lines 740-784). -/
def mergeWorkspacesResults (results : List ToolResult) : ToolResult :=
  let folded := results.foldl
    (fun (acc : List String × Nat) r =>
      match firstText r with
      | none => acc
      | some text =>
          let lines := (text.splitOn "\n").filter
            (fun line => line.startsWith "**" || line.startsWith "  •")
          if !lines.isEmpty then (acc.1 ++ lines, acc.2 + 1) else acc)
    ([], 0)
  let allWorkspaces := folded.1
  if allWorkspaces.isEmpty then
    { content := [{ type := "text"
                    text := some
                      "No workspaces are currently available" }] }
  else
    { content := [{ type := "text"
                    text := some
                      ("Available workspaces (" ++ toString folded.2 ++
                        " total):\n\n" ++
                        String.intercalate "\n" allWorkspaces ++ "\n\n" ++
                        "Use the workspace name or path in other tools to " ++
                        "target specific workspaces. For context-sensitive " ++
                        "tools like get_selection, specify the workspace to " ++
                        "get results from that specific instance.") }] }

/-- `MasterCoordinator.mergeInstancesResults` (master.ts lines 786-829). -/
def mergeInstancesResults (results : List ToolResult) : ToolResult :=
  let folded := results.foldl
    (fun (acc : List String × Nat) r =>
      match firstText r with
      | none => acc
      | some text =>
          let lines := (text.splitOn "\n").filter
            (fun line => line.startsWith "**" || line.startsWith "  •")
          if !lines.isEmpty then (acc.1 ++ lines, acc.2 + 1) else acc)
    ([], 0)
  let allInstances := folded.1
  if allInstances.isEmpty then
    { content := [{ type := "text"
                    text := some
                      "No instances are currently connected" }] }
  else
    { content := [{ type := "text"
                    text := some
                      ("Connected instances (" ++ toString folded.2 ++
                        " total):\n\n" ++
                        String.intercalate "\n" allInstances ++ "\n\n" ++
                        "Master coordinates all workers and handles tool " ++
                        "routing. Workers execute tools within their " ++
                        "specific workspaces.") }] }

/-- `MasterCoordinator.mergeToolResults` (master.ts lines 609-630). The
default branch is the JavaScript `results[0]`; every call site passes a
non-empty list, so `headD` with an empty result stands in for the
out-of-bounds access. -/
def mergeToolResults (tool : String) (results : List ToolResult) :
    ToolResult :=
  match tool with
  | "get_open_files" => mergeOpenFilesResults results
  | "get_workspace_symbols" => mergeWorkspaceSymbolsResults results
  | "search_files" => mergeSearchResults results
  | "get_workspaces" => mergeWorkspacesResults results
  | "get_instances" => mergeInstancesResults results
  | _ => results.headD { content := [] }

/-- `MasterCoordinator.aggregateFromAllWorkers` (master.ts lines 538-607).
Every remote call and the local execution are caught to `null` on failure,
so every settled branch is fulfilled; its outcome is the corresponding
`Option ToolResult` parameter. The `null` entries are filtered out; zero
valid results raise the all-failed error, otherwise the merge runs. -/
def aggregateFromAllWorkers (tool : String)
    (workerOutcomes : List (Option ToolResult))
    (localOutcome : Option ToolResult) : Except String ToolResult :=
  let results := workerOutcomes ++ [localOutcome]
  let validResults := results.filterMap id
  match validResults with
  | [] =>
      Except.error ("All workers and local execution failed for tool: " ++
        tool)
  | r :: rs => Except.ok (mergeToolResults tool (r :: rs))

/-! ## Leader election (`LeaderElection`) -/

/-- Code-point lexicographic three-way comparison on character lists, the
model of `String.prototype.localeCompare` (sign convention of the
JavaScript result). -/
def lexCompareChars : List Char → List Char → Int
  | [], [] => 0
  | [], _ :: _ => -1
  | _ :: _, [] => 1
  | a :: as, b :: bs =>
      if a < b then -1 else if b < a then 1 else lexCompareChars as bs

/-- `a.instanceId.localeCompare(b.instanceId)` modelled on the underlying
character lists. -/
def localeCompare (a b : String) : Int :=
  lexCompareChars a.data b.data

/-- The sort comparator of `LeaderElection.calculateElectionWinner`
(leaderElection module, lines 176-194): workspace score descending, uptime
descending, resource usage ascending, instance id ascending. -/
def compareCandidates (a b : ElectionCandidate) : Int :=
  if a.workspaceScore ≠ b.workspaceScore then
    b.workspaceScore - a.workspaceScore
  else if a.uptime ≠ b.uptime then b.uptime - a.uptime
  else if a.resourceUsage ≠ b.resourceUsage then
    a.resourceUsage - b.resourceUsage
  else localeCompare a.instanceId b.instanceId

/-- The boolean ordering induced by the comparator, as consumed by the
sort. -/
def electionLe (a b : ElectionCandidate) : Bool :=
  decide (compareCandidates a b ≤ 0)

/-- `LeaderElection.calculateElectionWinner` (lines 168-207): sort the
candidate list by the comparator and take the first element; the empty list
throws (`none`). -/
def calculateElectionWinner (candidates : List ElectionCandidate) :
    Option ElectionCandidate :=
  (candidates.mergeSort electionLe).head?

/-- `LeaderElection.validateQuorum` (lines 153-166):
`quorumSize || Math.ceil(totalWorkers / 2)` (0 is falsy) many candidates are
required. -/
def validateQuorum (quorumSize : Nat) (candidateCount : Nat)
    (totalWorkers : Nat) : Bool :=
  let q := if quorumSize = 0 then (totalWorkers + 1) / 2 else quorumSize
  candidateCount ≥ q

/-- `LeaderElection.startElection` (lines 31-71), with the collected
candidate responses supplied as a parameter (phase 1 is HTTP I/O): reject a
concurrent election, validate the quorum against the number of available
workers, then compute and return the winner id. -/
def startElection (electionInProgress : Bool)
    (collected : List ElectionCandidate) (totalWorkers : Nat)
    (quorumSize : Nat) : Except String String :=
  if electionInProgress then Except.error "Election already in progress"
  else if !validateQuorum quorumSize collected.length totalWorkers then
    Except.error "Insufficient candidates for election (quorum not met)"
  else
    match calculateElectionWinner collected with
    | none => Except.error "No candidates available for election"
    | some winner => Except.ok winner.instanceId

/-! ## Auxiliary predicates and concrete fixtures -/

/-- A worker id is completely absent: no registry record and no routing
entry pointing at it (the conclusion of invariant M2). -/
def workerAbsent (s : MasterState) (instanceId : String) : Prop :=
  mapGet s.registeredWorkers instanceId = none ∧
  ∀ q ∈ s.workspaceRouting, q.2 ≠ instanceId

instance (s : MasterState) (id : String) : Decidable (workerAbsent s id) :=
  inferInstanceAs (Decidable (_ ∧ _))

/-- The `workerInfo` record literal built by `registerWorker`. -/
def registrationWorkerInfo (req : RegistrationRequest) (now : Int) :
    WorkerInfo :=
  { instanceId := req.instanceId
    workspaceName := req.workspaceName
    workspacePath := req.workspacePath
    port := req.port
    capabilities := req.capabilities
    lastSeen := now
    status := WorkerStatus.active
    registeredAt := now
    version := req.version }

/-- A concrete worker record for the concrete instantiations below. -/
def sampleWorker (id path : String) : WorkerInfo :=
  { instanceId := id
    workspaceName := "ws-" ++ id
    workspacePath := path
    port := 9101
    capabilities := ["get_diagnostics"]
    lastSeen := 0
    status := WorkerStatus.active
    registeredAt := 0
    version := "0.1.0" }

/-- A concrete registration request (worker id "a", workspace path "/p"). -/
def reqA : RegistrationRequest :=
  { instanceId := "a"
    workspaceName := "alpha"
    workspacePath := "/p"
    port := 9101
    capabilities := ["get_diagnostics"]
    version := "0.1.0" }

/-- A concrete registration request (worker id "c", workspace path "/q"). -/
def reqC : RegistrationRequest :=
  { reqA with instanceId := "c", workspacePath := "/q" }

/-- A degenerate registration request: empty instance id, port 0. -/
def invalidReq : RegistrationRequest :=
  { instanceId := ""
    workspaceName := ""
    workspacePath := ""
    port := 0
    capabilities := []
    version := "" }

/-- A concrete master state in which worker "b" owns workspace path "/p". -/
def sRouting : MasterState :=
  { registeredWorkers := [("b", sampleWorker "b" "/p")]
    workspaceRouting := [("/p", "b")]
    startedAt := 0
    instanceId := "m" }

/-- Concrete worker with the shorter workspace path "/a". -/
def workerShort : WorkerInfo := sampleWorker "w1" "/a"

/-- Concrete worker with the longer workspace path "/a/b". -/
def workerLong : WorkerInfo := sampleWorker "w2" "/a/b"

/-- A registry in which both `workerShort` and `workerLong` can serve files
under "/a/b", `workerShort` registered first. -/
def sPrefixes : MasterState :=
  { registeredWorkers := [("w1", workerShort), ("w2", workerLong)]
    workspaceRouting := [("/a", "w1"), ("/a/b", "w2")]
    startedAt := 0
    instanceId := "m" }

/-- State after registering `reqA` at time 0. -/
def sHb0 : MasterState :=
  (registerWorker (createMasterState "m" 0) reqA 0 5000).1

/-- State after a first heartbeat (status active, timestamp 10). -/
def sHb1 : MasterState :=
  (handleHeartbeat sHb0 "a"
    { instanceId := "a", status := WorkerStatus.active, timestamp := 10 }).1

/-- State after a consecutive second heartbeat (status idle, timestamp 20). -/
def sHb2 : MasterState :=
  (handleHeartbeat sHb1 "a"
    { instanceId := "a", status := WorkerStatus.idle, timestamp := 20 }).1

/-- The coordination configuration with coordination disabled and mode forced
to MASTER. -/
def disabledForcedConfig : CoordinationConfig :=
  { enabled := false
    masterPort := 9100
    workerPortRange := (9101, 9199)
    heartbeatInterval := 5000
    registrationTimeout := 10000
    mode := some InstanceMode.MASTER }

/-- A successful tool result carrying one text item. -/
def sampleResult : ToolResult :=
  { content := [{ type := "text", text := some "hello" }] }

/-- Concrete election candidate "a": high workspace score. -/
def candA : ElectionCandidate :=
  { instanceId := "a"
    workspaceScore := 50
    uptime := 100
    resourceUsage := 20
    capabilities := ["get_diagnostics"]
    lastSeen := 0
    workerInfo := sampleWorker "a" "/a" }

/-- Concrete election candidate "b": lower workspace score. -/
def candB : ElectionCandidate :=
  { candA with instanceId := "b", workspaceScore := 30 }

/-- The in-place mutation a heartbeat applies to a worker record. -/
def heartbeatUpdate (w : WorkerInfo) (req : HeartbeatRequest) : WorkerInfo :=
  { w with lastSeen := req.timestamp, status := req.status }

/-- A stale record for worker "a" (idle, old timestamps, old workspace). -/
def oldRecA : WorkerInfo :=
  { instanceId := "a"
    workspaceName := "old"
    workspacePath := "/old"
    port := 9105
    capabilities := []
    lastSeen := 2
    status := WorkerStatus.idle
    registeredAt := 1
    version := "0.0.1" }

/-- A master state already holding the stale record for worker "a". -/
def sOld : MasterState :=
  { registeredWorkers := [("a", oldRecA)]
    workspaceRouting := [("/old", "a")]
    startedAt := 0
    instanceId := "m" }

/-! ## Lemmas about the association-list map -/

theorem mapContains_eq_true_iff {α : Type} (m : List (String × α))
    (k : String) : mapContains m k = true ↔ ∃ p ∈ m, p.1 = k := by
  simp [mapContains, List.any_eq_true]

theorem mapGet_eq_none_iff {α : Type} (m : List (String × α)) (k : String) :
    mapGet m k = none ↔ ∀ p ∈ m, p.1 ≠ k := by
  simp [mapGet, List.find?_eq_none]

theorem mapContains_of_mapGet_eq_some {α : Type} {m : List (String × α)}
    {k : String} {v : α} (h : mapGet m k = some v) :
    mapContains m k = true := by
  unfold mapGet at h
  cases hf : m.find? (fun p => p.1 == k) with
  | none => rw [hf] at h; simp at h
  | some p =>
      have hpred := List.find?_some hf
      have hmem := List.mem_of_find?_eq_some hf
      exact (mapContains_eq_true_iff m k).mpr ⟨p, hmem, by simpa using hpred⟩

theorem mapGet_eq_none_of_not_contains {α : Type} {m : List (String × α)}
    {k : String} (h : mapContains m k = false) : mapGet m k = none := by
  rw [mapGet_eq_none_iff]
  intro p hp hpk
  have : mapContains m k = true := (mapContains_eq_true_iff m k).mpr ⟨p, hp, hpk⟩
  rw [h] at this
  exact Bool.false_ne_true this

theorem mem_mapSet {α : Type} {m : List (String × α)} {k : String} {v : α}
    {p : String × α} (hp : p ∈ mapSet m k v) :
    p = (k, v) ∨ (p ∈ m ∧ p.1 ≠ k) := by
  unfold mapSet at hp
  split at hp
  · obtain ⟨q, hq, hpq⟩ := List.mem_map.mp hp
    by_cases hk : q.1 = k
    · left
      rw [if_pos (by simpa using hk)] at hpq
      exact hpq.symm
    · right
      rw [if_neg (by simpa using hk)] at hpq
      exact hpq ▸ ⟨hq, hk⟩
  · rename_i hnc
    rcases List.mem_append.mp hp with h | h
    · right
      refine ⟨h, fun hk => ?_⟩
      exact hnc ((mapContains_eq_true_iff m k).mpr ⟨p, h, hk⟩)
    · left
      simpa using h

theorem mapContains_mapSet_self {α : Type} (m : List (String × α))
    (k : String) (v : α) : mapContains (mapSet m k v) k = true := by
  unfold mapSet
  split
  · rename_i hc
    obtain ⟨p, hp, hpk⟩ := (mapContains_eq_true_iff m k).mp hc
    refine (mapContains_eq_true_iff _ k).mpr ⟨(k, v), ?_, rfl⟩
    exact List.mem_map.mpr ⟨p, hp, by rw [if_pos (by simpa using hpk)]⟩
  · exact (mapContains_eq_true_iff _ k).mpr
      ⟨(k, v), List.mem_append.mpr (Or.inr (by simp)), rfl⟩

theorem mapContains_mapSet_of {α : Type} {m : List (String × α)}
    {k' : String} (k : String) (v : α) (h : mapContains m k' = true) :
    mapContains (mapSet m k v) k' = true := by
  obtain ⟨p, hp, hpk⟩ := (mapContains_eq_true_iff m k').mp h
  by_cases hk : k' = k
  · exact hk ▸ mapContains_mapSet_self m k v
  · unfold mapSet
    split
    · refine (mapContains_eq_true_iff _ k').mpr ⟨p, ?_, ?_⟩
      · exact List.mem_map.mpr
          ⟨p, hp, by rw [if_neg (by simp [hpk, hk])]⟩
      · exact hpk
    · exact (mapContains_eq_true_iff _ k').mpr
        ⟨p, List.mem_append.mpr (Or.inl hp), hpk⟩

theorem mapContains_mapSet_eq_of_contains {α : Type}
    {m : List (String × α)} {k : String} (v : α)
    (hc : mapContains m k = true) (k' : String) :
    mapContains (mapSet m k v) k' = mapContains m k' := by
  unfold mapSet
  rw [if_pos hc]
  rcases hcc : mapContains m k' with _ | _
  · apply Bool.eq_false_iff.mpr
    intro h
    obtain ⟨p, hp, hpk⟩ := (mapContains_eq_true_iff _ k').mp h
    obtain ⟨q, hq, hqp⟩ := List.mem_map.mp hp
    by_cases hqk : q.1 = k
    · rw [if_pos (by simpa using hqk)] at hqp
      subst hqp
      have hk : k = k' := hpk
      rw [hk] at hc
      rw [hcc] at hc
      exact Bool.false_ne_true hc
    · rw [if_neg (by simpa using hqk)] at hqp
      subst hqp
      have : mapContains m k' = true :=
        (mapContains_eq_true_iff m k').mpr ⟨q, hq, hpk⟩
      rw [hcc] at this
      exact Bool.false_ne_true this
  · obtain ⟨p, hp, hpk⟩ := (mapContains_eq_true_iff m k').mp hcc
    rw [mapContains_eq_true_iff]
    by_cases hqk : p.1 = k
    · obtain ⟨q, hq, hqk2⟩ := (mapContains_eq_true_iff m k).mp hc
      refine ⟨(k, v), List.mem_map.mpr
        ⟨q, hq, by rw [if_pos (by simpa using hqk2)]⟩, ?_⟩
      rw [← hpk, hqk]
    · exact ⟨p, List.mem_map.mpr
        ⟨p, hp, by rw [if_neg (by simpa using hqk)]⟩, hpk⟩

theorem mapContains_mapDelete {α : Type} (m : List (String × α))
    (k k' : String) :
    mapContains (mapDelete m k) k' = true ↔
      mapContains m k' = true ∧ k' ≠ k := by
  constructor
  · intro h
    obtain ⟨p, hp, hpk⟩ := (mapContains_eq_true_iff _ k').mp h
    have hmem := List.mem_filter.mp hp
    refine ⟨(mapContains_eq_true_iff m k').mpr ⟨p, hmem.1, hpk⟩, ?_⟩
    intro hkk
    have := hmem.2
    simp [hpk, hkk] at this
  · rintro ⟨h, hne⟩
    obtain ⟨p, hp, hpk⟩ := (mapContains_eq_true_iff m k').mp h
    refine (mapContains_eq_true_iff _ k').mpr ⟨p, ?_, hpk⟩
    exact List.mem_filter.mpr ⟨hp, by simp [hpk, hne]⟩

theorem mapGet_mapDelete_self {α : Type} (m : List (String × α))
    (k : String) : mapGet (mapDelete m k) k = none := by
  rw [mapGet_eq_none_iff]
  intro p hp
  have := (List.mem_filter.mp hp).2
  simpa using this

theorem find?_map_replace_of_contains {α : Type} {m : List (String × α)}
    {k : String} (v : α) (hc : mapContains m k = true) :
    (m.map (fun p => if p.1 == k then (k, v) else p)).find?
      (fun p => p.1 == k) = some (k, v) := by
  induction m with
  | nil => simp [mapContains] at hc
  | cons q rest ih =>
      by_cases hqk : q.1 = k
      · simp [List.find?_cons, hqk]
      · have hrest : mapContains rest k = true := by
          simp only [mapContains, List.any_cons, Bool.or_eq_true] at hc
          rcases hc with hc | hc
          · exact absurd (by simpa using hc) hqk
          · exact hc
        simpa [List.find?_cons, hqk] using ih hrest

theorem mapGet_mapSet_self {α : Type} (m : List (String × α)) (k : String)
    (v : α) : mapGet (mapSet m k v) k = some v := by
  unfold mapSet
  split
  · rename_i hc
    unfold mapGet
    rw [find?_map_replace_of_contains v hc]
    rfl
  · rename_i hnc
    unfold mapGet
    rw [List.find?_append]
    have h1 : m.find? (fun p => p.1 == k) = none := by
      rw [List.find?_eq_none]
      intro p hp hpk
      exact hnc ((mapContains_eq_true_iff m k).mpr ⟨p, hp, by simpa using hpk⟩)
    rw [h1]
    simp

theorem find?_map_replace_ne {α : Type} (m : List (String × α))
    {k k' : String} (v : α) (hne : k' ≠ k) :
    (m.map (fun p => if p.1 == k then (k, v) else p)).find?
      (fun p => p.1 == k') = m.find? (fun p => p.1 == k') := by
  induction m with
  | nil => rfl
  | cons q rest ih =>
      by_cases hqk : q.1 = k
      · simp only [List.map_cons, List.find?_cons]
        rw [if_pos (by simpa using hqk)]
        have h1 : ((k, v).1 == k') = false := by simpa using Ne.symm hne
        have h2 : (q.1 == k') = false := by
          simp only [hqk]
          simpa using Ne.symm hne
        rw [h1, h2]
        exact ih
      · simp only [List.map_cons, List.find?_cons]
        rw [if_neg (by simpa using hqk)]
        cases hq' : (q.1 == k') with
        | true => rfl
        | false => exact ih

theorem mapGet_mapSet_ne {α : Type} (m : List (String × α)) {k k' : String}
    (v : α) (hne : k' ≠ k) : mapGet (mapSet m k v) k' = mapGet m k' := by
  unfold mapSet
  split
  · unfold mapGet
    rw [find?_map_replace_ne m v hne]
  · unfold mapGet
    rw [List.find?_append]
    have h2 : [(k, v)].find? (fun p => p.1 == k') = none := by
      rw [List.find?_eq_none]
      intro p hp
      simp at hp
      subst hp
      simpa using Ne.symm hne
    rw [h2]
    simp

theorem mapSet_mapSet_self {α : Type} (m : List (String × α)) (k : String)
    (v v' : α) : mapSet (mapSet m k v) k v' = mapSet m k v' := by
  by_cases hc : mapContains m k = true
  · have hc2 : mapContains (mapSet m k v) k = true := mapContains_mapSet_self m k v
    unfold mapSet
    rw [if_pos hc, if_pos hc]
    rw [if_pos (by unfold mapSet at hc2; rw [if_pos hc] at hc2; exact hc2)]
    rw [List.map_map]
    apply List.map_congr_left
    intro q _
    by_cases hqk : q.1 = k
    · simp [hqk]
    · simp [hqk]
  · have hnc := Bool.not_eq_true _ |>.mp hc
    have hc2 : mapContains (mapSet m k v) k = true := mapContains_mapSet_self m k v
    unfold mapSet
    rw [if_neg hc, if_neg hc]
    rw [if_pos (by unfold mapSet at hc2; rw [if_neg hc] at hc2; exact hc2)]
    rw [List.map_append]
    have hmap : m.map (fun p => if p.1 == k then (k, v') else p) = m := by
      conv_rhs => rw [← List.map_id m]
      apply List.map_congr_left
      intro p hp
      have hpk : p.1 ≠ k := fun hpk =>
        hc ((mapContains_eq_true_iff m k).mpr ⟨p, hp, hpk⟩)
      simp [hpk]
    rw [hmap]
    simp

theorem mapDelete_append_single {α : Type} (m : List (String × α))
    (k : String) (v : α) (h : ∀ p ∈ m, p.1 ≠ k) :
    mapDelete (m ++ [(k, v)]) k = m := by
  unfold mapDelete
  rw [List.filter_append]
  have h1 : m.filter (fun p => p.1 != k) = m := by
    apply List.filter_eq_self.mpr
    intro p hp
    simpa using h p hp
  rw [h1]
  simp

/-! ## Invariant M1 and the atomic-removal property M2 -/

theorem registerWorker_fst (s : MasterState) (req : RegistrationRequest)
    (now heartbeatInterval : Int) :
    (registerWorker s req now heartbeatInterval).1 =
      { s with
        registeredWorkers :=
          mapSet s.registeredWorkers req.instanceId
            (registrationWorkerInfo req now)
        workspaceRouting :=
          mapSet s.workspaceRouting req.workspacePath req.instanceId } := rfl

theorem contains_eq_false_of_mapGet_none {α : Type} {m : List (String × α)}
    {k : String} (h : mapGet m k = none) : mapContains m k = false := by
  cases hc : mapContains m k with
  | false => rfl
  | true =>
      obtain ⟨p, hp, hpk⟩ := (mapContains_eq_true_iff m k).mp hc
      exact absurd hpk ((mapGet_eq_none_iff m k).mp h p hp)

theorem invariantM1_registerWorker {s : MasterState}
    {req : RegistrationRequest} {now hb : Int} (h : invariantM1 s) :
    invariantM1 (registerWorker s req now hb).1 := by
  rw [registerWorker_fst]
  intro p hp
  rcases mem_mapSet hp with hmem | ⟨hmem, _⟩
  · subst hmem
    exact mapContains_mapSet_self _ _ _
  · exact mapContains_mapSet_of _ _ (h p hmem)

theorem invariantM1_deregisterWorker {s : MasterState} {id : String}
    (h : invariantM1 s) : invariantM1 (deregisterWorker s id) := by
  unfold deregisterWorker
  cases hw : mapGet s.registeredWorkers id with
  | none => exact h
  | some w =>
      intro p hp
      simp only [cleanupWorkspaceRouting] at hp ⊢
      have hmem := List.mem_filter.mp hp
      refine (mapContains_mapDelete _ _ _).mpr ⟨h p hmem.1, ?_⟩
      simpa using hmem.2

theorem invariantM1_handleHeartbeat {s : MasterState} {id : String}
    {req : HeartbeatRequest} (h : invariantM1 s) :
    invariantM1 (handleHeartbeat s id req).1 := by
  unfold handleHeartbeat
  cases hw : mapGet s.registeredWorkers id with
  | none => exact h
  | some w =>
      intro p hp
      rw [mapContains_mapSet_eq_of_contains _
        (mapContains_of_mapGet_eq_some hw)]
      exact h p hp

theorem invariantM1_reapFold {now hb : Int} :
    ∀ (l : List (String × WorkerInfo)) (acc : MasterState),
      invariantM1 acc →
      invariantM1 (l.foldl
        (fun acc p =>
          if now - p.2.lastSeen > hb * 3 then deregisterWorker acc p.1
          else acc)
        acc)
  | [], _, h => h
  | p :: rest, acc, h => by
      simp only [List.foldl_cons]
      apply invariantM1_reapFold rest
      by_cases hcond : now - p.2.lastSeen > hb * 3
      · rw [if_pos hcond]
        exact invariantM1_deregisterWorker h
      · rw [if_neg hcond]
        exact h

theorem invariantM1_checkWorkerHeartbeats {s : MasterState} {now hb : Int}
    (h : invariantM1 s) : invariantM1 (checkWorkerHeartbeats s now hb) :=
  invariantM1_reapFold s.registeredWorkers s h

theorem invariantM1_applyMasterOp {s : MasterState} {op : MasterOp}
    (h : invariantM1 s) : invariantM1 (applyMasterOp s op) := by
  cases op with
  | register req now hb => exact invariantM1_registerWorker h
  | deregister id => exact invariantM1_deregisterWorker h
  | heartbeat id req => exact invariantM1_handleHeartbeat h
  | reap now hb => exact invariantM1_checkWorkerHeartbeats h

theorem invariantM1_foldl {ops : List MasterOp} :
    ∀ {s : MasterState}, invariantM1 s →
      invariantM1 (ops.foldl applyMasterOp s) := by
  induction ops with
  | nil => exact fun h => h
  | cons op rest ih =>
      intro s h
      exact ih (invariantM1_applyMasterOp h)

theorem invariantM1_execMasterOps (instanceId : String) (startedAt : Int)
    (ops : List MasterOp) :
    invariantM1 (execMasterOps instanceId startedAt ops) := by
  apply invariantM1_foldl
  intro p hp
  simp [createMasterState] at hp

theorem workerAbsent_deregisterWorker_self {s : MasterState} {id : String}
    (h : invariantM1 s) : workerAbsent (deregisterWorker s id) id := by
  unfold deregisterWorker
  cases hw : mapGet s.registeredWorkers id with
  | none =>
      refine ⟨hw, fun q hq hq2 => ?_⟩
      have hc := h q hq
      rw [hq2] at hc
      rw [contains_eq_false_of_mapGet_none hw] at hc
      exact Bool.false_ne_true hc
  | some w =>
      refine ⟨mapGet_mapDelete_self _ _, fun q hq => ?_⟩
      simp only [cleanupWorkspaceRouting] at hq
      have := (List.mem_filter.mp hq).2
      simpa using this

theorem mapGet_mapDelete_none {α : Type} {m : List (String × α)}
    {k k' : String} (h : mapGet m k = none) :
    mapGet (mapDelete m k') k = none := by
  rw [mapGet_eq_none_iff] at h ⊢
  intro p hp
  exact h p (List.mem_filter.mp hp).1

theorem workerAbsent_deregisterWorker {s : MasterState} {id id' : String}
    (h : workerAbsent s id) : workerAbsent (deregisterWorker s id') id := by
  unfold deregisterWorker
  cases hw : mapGet s.registeredWorkers id' with
  | none => exact h
  | some w =>
      refine ⟨mapGet_mapDelete_none h.1, fun q hq => ?_⟩
      simp only [cleanupWorkspaceRouting] at hq
      exact h.2 q (List.mem_filter.mp hq).1

theorem workerAbsent_reapFold {now hb : Int} {id : String} :
    ∀ (l : List (String × WorkerInfo)) (acc : MasterState),
      workerAbsent acc id →
      workerAbsent (l.foldl
        (fun acc p =>
          if now - p.2.lastSeen > hb * 3 then deregisterWorker acc p.1
          else acc)
        acc) id
  | [], _, h => h
  | p :: rest, acc, h => by
      simp only [List.foldl_cons]
      apply workerAbsent_reapFold rest
      by_cases hcond : now - p.2.lastSeen > hb * 3
      · rw [if_pos hcond]
        exact workerAbsent_deregisterWorker h
      · rw [if_neg hcond]
        exact h

theorem reapFold_expired {now hb : Int} :
    ∀ (l : List (String × WorkerInfo)) (acc : MasterState),
      invariantM1 acc →
      ∀ p ∈ l, now - p.2.lastSeen > hb * 3 →
        workerAbsent (l.foldl
          (fun acc q =>
            if now - q.2.lastSeen > hb * 3 then deregisterWorker acc q.1
            else acc)
          acc) p.1
  | [], _, _, p, hp, _ => absurd hp (List.not_mem_nil p)
  | q :: rest, acc, hM1, p, hp, hexp => by
      simp only [List.foldl_cons]
      rcases List.mem_cons.mp hp with hpq | hpr
      · subst hpq
        rw [if_pos hexp]
        exact workerAbsent_reapFold rest _
          (workerAbsent_deregisterWorker_self hM1)
      · apply reapFold_expired rest _ _ p hpr hexp
        by_cases hcond : now - q.2.lastSeen > hb * 3
        · rw [if_pos hcond]
          exact invariantM1_deregisterWorker hM1
        · rw [if_neg hcond]
          exact hM1

theorem checkWorkerHeartbeats_expired {s : MasterState} {now hb : Int}
    (h : invariantM1 s) :
    ∀ p ∈ s.registeredWorkers, now - p.2.lastSeen > hb * 3 →
      workerAbsent (checkWorkerHeartbeats s now hb) p.1 :=
  fun p hp hexp => reapFold_expired s.registeredWorkers s h p hp hexp

/-! ## Lemmas about the election comparator -/

theorem lexCompareChars_nil_le (b : List Char) : lexCompareChars [] b ≤ 0 := by
  cases b <;> simp [lexCompareChars]

theorem lexCompareChars_neg_antisymm :
    ∀ (a b : List Char), lexCompareChars a b = - lexCompareChars b a
  | [], [] => rfl
  | [], _ :: _ => rfl
  | _ :: _, [] => rfl
  | x :: xs, y :: ys => by
      simp only [lexCompareChars]
      rcases lt_trichotomy x y with h | h | h
      · rw [if_pos h, if_neg (asymm h), if_pos h]
      · subst h
        rw [if_neg (lt_irrefl x), if_neg (lt_irrefl x), if_neg (lt_irrefl x),
          if_neg (lt_irrefl x)]
        exact lexCompareChars_neg_antisymm xs ys
      · rw [if_neg (asymm h), if_pos h, if_pos h]
        rfl

theorem lexCompareChars_le_trans :
    ∀ {a b c : List Char}, lexCompareChars a b ≤ 0 →
      lexCompareChars b c ≤ 0 → lexCompareChars a c ≤ 0
  | [], _, c, _, _ => lexCompareChars_nil_le c
  | _ :: _, [], _, h1, _ => by simp [lexCompareChars] at h1
  | _ :: _, _ :: _, [], _, h2 => by simp [lexCompareChars] at h2
  | x :: xs, y :: ys, z :: zs, h1, h2 => by
      simp only [lexCompareChars] at h1 h2 ⊢
      rcases lt_trichotomy x y with hxy | hxy | hxy
      · rcases lt_trichotomy y z with hyz | hyz | hyz
        · rw [if_pos (lt_trans hxy hyz)]
          norm_num
        · subst hyz
          rw [if_pos hxy]
          norm_num
        · rw [if_neg (asymm hyz), if_pos hyz] at h2
          norm_num at h2
      · subst hxy
        rw [if_neg (lt_irrefl x), if_neg (lt_irrefl x)] at h1
        rcases lt_trichotomy x z with hxz | hxz | hxz
        · rw [if_pos hxz]
          norm_num
        · subst hxz
          rw [if_neg (lt_irrefl x), if_neg (lt_irrefl x)] at h2 ⊢
          exact lexCompareChars_le_trans h1 h2
        · rw [if_neg (asymm hxz), if_pos hxz] at h2
          norm_num at h2
      · rw [if_neg (asymm hxy), if_pos hxy] at h1
        norm_num at h1

theorem compareCandidates_neg_antisymm (a b : ElectionCandidate) :
    compareCandidates a b = - compareCandidates b a := by
  unfold compareCandidates localeCompare
  split_ifs <;>
    first
    | omega
    | (exact lexCompareChars_neg_antisymm _ _)

theorem compareCandidates_le_iff (a b : ElectionCandidate) :
    compareCandidates a b ≤ 0 ↔
      b.workspaceScore < a.workspaceScore ∨
        (b.workspaceScore = a.workspaceScore ∧
          (b.uptime < a.uptime ∨
            (b.uptime = a.uptime ∧
              (a.resourceUsage < b.resourceUsage ∨
                (a.resourceUsage = b.resourceUsage ∧
                  lexCompareChars a.instanceId.data b.instanceId.data ≤ 0))))) := by
  unfold compareCandidates localeCompare
  by_cases h1 : a.workspaceScore = b.workspaceScore
  · rw [if_neg (by simp [h1])]
    by_cases h2 : a.uptime = b.uptime
    · rw [if_neg (by simp [h2])]
      by_cases h3 : a.resourceUsage = b.resourceUsage
      · rw [if_neg (by simp [h3])]
        constructor
        · intro h
          exact Or.inr ⟨h1.symm, Or.inr ⟨h2.symm, Or.inr ⟨h3, h⟩⟩⟩
        · rintro (h | ⟨-, h | ⟨-, h | ⟨-, h⟩⟩⟩) <;> omega
      · rw [if_pos h3]
        constructor
        · intro h
          exact Or.inr ⟨h1.symm, Or.inr ⟨h2.symm, Or.inl (by omega)⟩⟩
        · rintro (h | ⟨-, h | ⟨-, h | ⟨h, -⟩⟩⟩) <;> omega
    · rw [if_pos h2]
      constructor
      · intro h
        exact Or.inr ⟨h1.symm, Or.inl (by omega)⟩
      · rintro (h | ⟨-, h | ⟨h, -⟩⟩) <;> omega
  · rw [if_pos h1]
    constructor
    · intro h
      exact Or.inl (by omega)
    · rintro (h | ⟨h, -⟩) <;> omega

theorem compareCandidates_le_trans {a b c : ElectionCandidate}
    (h1 : compareCandidates a b ≤ 0) (h2 : compareCandidates b c ≤ 0) :
    compareCandidates a c ≤ 0 := by
  rw [compareCandidates_le_iff] at h1 h2 ⊢
  rcases h1 with h1 | ⟨e1, h1 | ⟨f1, h1 | ⟨g1, h1⟩⟩⟩ <;>
    rcases h2 with h2 | ⟨e2, h2 | ⟨f2, h2 | ⟨g2, h2⟩⟩⟩ <;>
    first
    | (left; omega)
    | (right
       refine ⟨by omega, ?_⟩
       first
       | (left; omega)
       | (right
          refine ⟨by omega, ?_⟩
          first
          | (left; omega)
          | (right
             refine ⟨by omega, ?_⟩
             exact lexCompareChars_le_trans h1 h2)))

theorem electionLe_trans_bool (a b c : ElectionCandidate)
    (h1 : electionLe a b = true) (h2 : electionLe b c = true) :
    electionLe a c = true := by
  simp only [electionLe, decide_eq_true_eq] at h1 h2 ⊢
  exact compareCandidates_le_trans h1 h2

theorem electionLe_total (a b : ElectionCandidate) :
    (electionLe a b || electionLe b a) = true := by
  simp only [electionLe, Bool.or_eq_true, decide_eq_true_eq]
  by_contra h
  push_neg at h
  have := compareCandidates_neg_antisymm a b
  omega

theorem calculateElectionWinner_eq_max {l : List ElectionCandidate}
    {m : ElectionCandidate} (hm : m ∈ l)
    (hmax : ∀ c ∈ l, c ≠ m → compareCandidates m c < 0) :
    calculateElectionWinner l = some m := by
  unfold calculateElectionWinner
  have hperm : (l.mergeSort electionLe).Perm l := List.mergeSort_perm l electionLe
  have hsorted := List.sorted_mergeSort electionLe_trans_bool electionLe_total l
  cases hs : l.mergeSort electionLe with
  | nil =>
      rw [hs] at hperm
      rw [hperm.symm.eq_nil] at hm
      exact absurd hm (List.not_mem_nil m)
  | cons hd t =>
      rw [hs] at hperm hsorted
      simp only [List.head?_cons, Option.some.injEq]
      by_contra hne
      have hm' : m ∈ hd :: t := hperm.mem_iff.mpr hm
      have hmt : m ∈ t := by
        rcases List.mem_cons.mp hm' with h' | h'
        · exact absurd h'.symm hne
        · exact h'
      have hle : electionLe hd m = true :=
        List.rel_of_pairwise_cons hsorted hmt
      have hlt : compareCandidates m hd < 0 :=
        hmax hd (hperm.mem_iff.mp (List.mem_cons_self hd t)) hne
      have hanti := compareCandidates_neg_antisymm hd m
      simp only [electionLe, decide_eq_true_eq] at hle
      omega

/-! ## Lemmas about the aggregated fan-out -/

theorem aggregate_error_of_all_none (tool : String)
    (workerOutcomes : List (Option ToolResult))
    (localOutcome : Option ToolResult)
    (h : ∀ o ∈ workerOutcomes ++ [localOutcome], o = none) :
    aggregateFromAllWorkers tool workerOutcomes localOutcome =
      Except.error
        ("All workers and local execution failed for tool: " ++ tool) := by
  unfold aggregateFromAllWorkers
  have hnil : (workerOutcomes ++ [localOutcome]).filterMap id = [] :=
    List.filterMap_eq_nil_iff.mpr h
  simp only [hnil]

theorem aggregate_isOk_of_any (tool : String)
    (workerOutcomes : List (Option ToolResult))
    (localOutcome : Option ToolResult)
    (h : (workerOutcomes ++ [localOutcome]).any Option.isSome = true) :
    (aggregateFromAllWorkers tool workerOutcomes localOutcome).isOk = true := by
  obtain ⟨o, ho, hsome⟩ := List.any_eq_true.mp h
  obtain ⟨r, hr⟩ := Option.isSome_iff_exists.mp hsome
  have hmem : r ∈ (workerOutcomes ++ [localOutcome]).filterMap id :=
    List.mem_filterMap.mpr ⟨o, ho, by simp [hr]⟩
  unfold aggregateFromAllWorkers
  cases hv : (workerOutcomes ++ [localOutcome]).filterMap id with
  | nil =>
      rw [hv] at hmem
      exact absurd hmem (List.not_mem_nil r)
  | cons x xs =>
      simp only [hv]
      rfl

/-! ## Claim theorems -/

/-- Claim C1 (confirmed): for every election whose candidate list has a
unique maximum m under the comparator ordered by workspaceScore descending,
uptime descending, resourceUsage ascending, instanceId ascending,
`calculateElectionWinner` returns m; consequently `startElection` (no
election already in progress, quorum met) returns the instance id of m. -/
theorem calculateElectionWinner_returns_unique_max
    (l : List ElectionCandidate) (m : ElectionCandidate) (hm : m ∈ l)
    (hmax : ∀ c ∈ l, c ≠ m → compareCandidates m c < 0) :
    calculateElectionWinner l = some m ∧
      ∀ totalWorkers quorumSize : Nat,
        validateQuorum quorumSize l.length totalWorkers = true →
        startElection false l totalWorkers quorumSize =
          Except.ok m.instanceId := by
  have hwin := calculateElectionWinner_eq_max hm hmax
  refine ⟨hwin, fun totalWorkers quorumSize hq => ?_⟩
  unfold startElection
  rw [if_neg (by simp), if_neg (by simp [hq]), hwin]

/-- Witness for C1: candidate "a" strictly beats candidate "b" on the
workspace score, so "a" wins the two-candidate election. -/
theorem calculateElectionWinner_returns_unique_max_witness :
    calculateElectionWinner [candA, candB] = some candA ∧
      startElection false [candA, candB] 2 0 = Except.ok "a" := by
  have h := calculateElectionWinner_returns_unique_max [candA, candB] candA
    (by decide) (by decide)
  exact ⟨h.1, h.2 2 0 (by decide)⟩

/-- Claim C2 (confirmed): along every sequence of register, deregister,
heartbeat and reap operations from a fresh master state, invariant M1 holds
(every routing value is a registered key); and removing a worker — by
deregister or by heartbeat-timeout reaping — leaves, in that single step,
no registry record and no routing entry pointing at the removed id. -/
theorem masterRegistry_m1_m2 :
    (∀ (instanceId : String) (startedAt : Int) (ops : List MasterOp),
        invariantM1 (execMasterOps instanceId startedAt ops)) ∧
    (∀ (s : MasterState) (id : String), invariantM1 s →
        workerAbsent (deregisterWorker s id) id) ∧
    (∀ (s : MasterState) (now hb : Int), invariantM1 s →
        ∀ p ∈ s.registeredWorkers, now - p.2.lastSeen > hb * 3 →
          workerAbsent (checkWorkerHeartbeats s now hb) p.1) :=
  ⟨invariantM1_execMasterOps,
    fun _ _ h => workerAbsent_deregisterWorker_self h,
    fun _ _ _ h => checkWorkerHeartbeats_expired h⟩

/-- Witness for C2: a concrete operation sequence keeps M1, and removing
worker "b" — explicitly or because its heartbeat timed out — clears its
registry record together with its routing entry. -/
theorem masterRegistry_m1_m2_witness :
    invariantM1 (execMasterOps "m" 0
      [MasterOp.register reqA 10 5000, MasterOp.register reqC 20 5000,
        MasterOp.deregister "a"]) ∧
    workerAbsent (deregisterWorker sRouting "b") "b" ∧
    workerAbsent (checkWorkerHeartbeats sRouting 100000 5000) "b" :=
  ⟨masterRegistry_m1_m2.1 "m" 0 _,
    masterRegistry_m1_m2.2.1 sRouting "b" (by decide),
    masterRegistry_m1_m2.2.2 sRouting 100000 5000 (by decide)
      ("b", sampleWorker "b" "/p") (by decide) (by decide)⟩

/-- Claim C3 counterexample: when every branch fails, the raised error text
is "All workers and local execution failed for tool: X", which is not the
message "all workers and local failed for tool X" stated by the claim. -/
theorem aggregate_error_message_counterexample :
    aggregateFromAllWorkers "X" [] none =
      Except.error "All workers and local execution failed for tool: X" ∧
    "All workers and local execution failed for tool: X" ≠
      "all workers and local failed for tool X" :=
  ⟨rfl, by decide⟩

/-- Claim C3 (amended): the aggregated fan-out returns a merged result
exactly when at least one branch (a worker call or the local execution)
succeeded; when every branch fails it raises the error
"All workers and local execution failed for tool: " followed by the tool
name. -/
theorem aggregateFromAllWorkers_ok_iff (tool : String)
    (workerOutcomes : List (Option ToolResult))
    (localOutcome : Option ToolResult) :
    ((aggregateFromAllWorkers tool workerOutcomes localOutcome).isOk = true ↔
      (workerOutcomes ++ [localOutcome]).any Option.isSome = true) ∧
    ((∀ o ∈ workerOutcomes, o = none) → localOutcome = none →
      aggregateFromAllWorkers tool workerOutcomes localOutcome =
        Except.error
          ("All workers and local execution failed for tool: " ++ tool)) := by
  constructor
  · constructor
    · intro h
      by_contra hany
      have hall : ∀ o ∈ workerOutcomes ++ [localOutcome], o = none := by
        intro o ho
        have := List.any_eq_false.mp
          (Bool.eq_false_iff.mpr hany) o ho
        exact Option.not_isSome_iff_eq_none.mp this
      rw [aggregate_error_of_all_none tool workerOutcomes localOutcome hall]
        at h
      simp [Except.isOk, Except.toBool] at h
    · exact aggregate_isOk_of_any tool workerOutcomes localOutcome
  · intro hw hl
    apply aggregate_error_of_all_none
    intro o ho
    rcases List.mem_append.mp ho with h | h
    · exact hw o h
    · rw [List.mem_singleton.mp h]
      exact hl

/-- Witness for C3 (amended): one successful worker branch makes the call
succeed, and with the single worker branch and local both failed the
all-failed error is raised. -/
theorem aggregateFromAllWorkers_ok_iff_witness :
    ((aggregateFromAllWorkers "get_open_files" [some sampleResult]
        none).isOk = true ↔
      ([some sampleResult] ++ [(none : Option ToolResult)]).any
        Option.isSome = true) ∧
    aggregateFromAllWorkers "X" [none] none =
      Except.error "All workers and local execution failed for tool: X" := by
  refine ⟨(aggregateFromAllWorkers_ok_iff "get_open_files" [some sampleResult]
    none).1, ?_⟩
  exact (aggregateFromAllWorkers_ok_iff "X" [none] none).2
    (by simp) rfl

/-- Claim C4 counterexample: both registered workers match the uri
"/a/b/f.ts" by workspace-path prefix and the second registered worker has
the strictly longer matching prefix "/a/b", yet the router selects the
first-registered worker whose prefix is only "/a". -/
theorem findTargetWorker_longest_prefix_counterexample :
    isFileInWorkspace "/a/b/f.ts" workerShort.workspacePath = true ∧
    isFileInWorkspace "/a/b/f.ts" workerLong.workspacePath = true ∧
    workerShort.workspacePath.data.length <
      workerLong.workspacePath.data.length ∧
    findTargetWorker sPrefixes { workspace := none, uri := some "/a/b/f.ts" } =
      some workerShort := by decide

/-- Claim C4 (amended): for a workspace_specific call carrying a uri and no
workspace parameter, the router selects the FIRST worker in registry
iteration order whose workspacePath is a prefix of the normalised uri path;
prefix lengths are never compared, so the longest match is not preferred. -/
theorem findTargetWorker_first_uri_match (s : MasterState) (fileUri : String)
    (pre post : List (String × WorkerInfo)) (k : String) (w : WorkerInfo)
    (hreg : s.registeredWorkers = pre ++ (k, w) :: post)
    (hpre : ∀ p ∈ pre, isFileInWorkspace fileUri p.2.workspacePath = false)
    (hw : isFileInWorkspace fileUri w.workspacePath = true) :
    findTargetWorker s { workspace := none, uri := some fileUri } =
      some w := by
  have hfind : s.registeredWorkers.find?
      (fun p => isFileInWorkspace fileUri p.2.workspacePath) = some (k, w) := by
    rw [hreg, List.find?_append]
    have h1 : pre.find?
        (fun p => isFileInWorkspace fileUri p.2.workspacePath) = none :=
      List.find?_eq_none.mpr (fun p hp => by simp [hpre p hp])
    rw [h1, List.find?_cons_of_pos _ (by simpa using hw)]
    rfl
  simp only [findTargetWorker, hfind, Option.map_some]
  rfl

/-- Witness for C4 (amended): in the two-worker registry the first worker
(prefix "/a") is selected for "/a/b/f.ts". -/
theorem findTargetWorker_first_uri_match_witness :
    findTargetWorker sPrefixes { workspace := none, uri := some "/a/b/f.ts" } =
      some workerShort :=
  findTargetWorker_first_uri_match sPrefixes "/a/b/f.ts" []
    [("w2", workerLong)] "w1" workerShort rfl
    (fun p hp => absurd hp (List.not_mem_nil p)) (by decide)

/-- Claim C5 counterexample: with coordination disabled AND mode forced to
MASTER, detectMode returns MASTER, not STANDALONE: the forced-mode rule is
checked before the disabled rule. -/
theorem detectMode_disabled_forced_counterexample :
    detectMode disabledForcedConfig MasterStatus.UNREACHABLE false =
      InstanceMode.MASTER ∧
    InstanceMode.MASTER ≠ InstanceMode.STANDALONE := by decide

/-- Claim C5 (amended): when coordination is configured off AND no mode is
forced (mode absent or AUTO), detectMode returns STANDALONE; in the code
the forced-mode rule of step 2 is applied BEFORE the disabled rule, so a
forced mode wins over the disabled flag. -/
theorem detectMode_disabled_standalone (config : CoordinationConfig)
    (masterStatus : MasterStatus) (shouldElect : Bool)
    (hdis : config.enabled = false)
    (hmode : config.mode = none ∨ config.mode = some InstanceMode.AUTO) :
    detectMode config masterStatus shouldElect = InstanceMode.STANDALONE := by
  unfold detectMode detectModeAuto
  rcases hmode with h | h <;> rw [h] <;> simp [hdis]

/-- Witness for C5 (amended): disabled coordination with AUTO mode yields
STANDALONE even though the master port probe reports a healthy master. -/
theorem detectMode_disabled_standalone_witness :
    detectMode { disabledForcedConfig with mode := some InstanceMode.AUTO }
      MasterStatus.HEALTHY true = InstanceMode.STANDALONE :=
  detectMode_disabled_standalone _ _ _ rfl (Or.inr rfl)

/-- Claim C6 counterexample: registerWorker performs no validation and no
reachability check: the degenerate request with empty instanceId and port 0
(a port no loopback listener can hold) is accepted with success, no error,
and a registry record is created for it. -/
theorem registerWorker_no_validation_counterexample :
    (registerWorker (createMasterState "m" 0) invalidReq 5 5000).2.success =
      true ∧
    (registerWorker (createMasterState "m" 0) invalidReq 5 5000).2.error =
      none ∧
    mapGet (registerWorker (createMasterState "m" 0) invalidReq 5
      5000).1.registeredWorkers "" =
      some (registrationWorkerInfo invalidReq 5) := by decide

/-- Claim C6 (amended): registerWorker accepts every request: it always
replies success with no error, unconditionally creates or replaces the
record for req.instanceId (built only from the request and the clock), and
updates the workspacePath → instanceId index; no validation and no loopback
reachability verification happen during registration. -/
theorem registerWorker_unconditional (s : MasterState)
    (req : RegistrationRequest) (now hb : Int) :
    (registerWorker s req now hb).2 =
      { success := true
        instanceId := req.instanceId
        masterInstanceId := s.instanceId
        heartbeatInterval := hb
        error := none } ∧
    mapGet (registerWorker s req now hb).1.registeredWorkers req.instanceId =
      some (registrationWorkerInfo req now) ∧
    mapGet (registerWorker s req now hb).1.workspaceRouting
      req.workspacePath = some req.instanceId := by
  refine ⟨rfl, ?_, ?_⟩
  · rw [registerWorker_fst]
    exact mapGet_mapSet_self _ _ _
  · rw [registerWorker_fst]
    exact mapGet_mapSet_self _ _ _

/-- Claim C7 counterexample: a worker registered at time 100 (lastSeen 100)
whose next heartbeat carries the client-supplied timestamp 50 has its
lastSeen lowered from 100 to 50: handleHeartbeat stores the request
timestamp without any monotonicity guard. -/
theorem lastSeen_monotonic_counterexample :
    (mapGet (registerWorker (createMasterState "m" 0) reqA 100
        5000).1.registeredWorkers "a").map WorkerInfo.lastSeen =
      some 100 ∧
    (mapGet (handleHeartbeat
        (registerWorker (createMasterState "m" 0) reqA 100 5000).1 "a"
        { instanceId := "a", status := WorkerStatus.active,
          timestamp := 50 }).1.registeredWorkers "a").map
        WorkerInfo.lastSeen = some 50 ∧
    (50 : Int) < 100 := by decide

/-- Claim C7 (amended): handleHeartbeat overwrites lastSeen with the
timestamp carried by the heartbeat request; consequently lastSeen is
non-decreasing exactly when every heartbeat timestamp is at least the
current lastSeen of the record, and it can decrease otherwise. -/
theorem handleHeartbeat_state_of_get {s : MasterState} {id : String}
    {w : WorkerInfo} (req : HeartbeatRequest)
    (hw : mapGet s.registeredWorkers id = some w) :
    (handleHeartbeat s id req).1 =
      { s with registeredWorkers :=
          mapSet s.registeredWorkers id (heartbeatUpdate w req) } := by
  unfold handleHeartbeat
  rw [hw]
  rfl

theorem handleHeartbeat_lastSeen_monotone (s : MasterState) (id : String)
    (req : HeartbeatRequest) (w : WorkerInfo)
    (hw : mapGet s.registeredWorkers id = some w)
    (hts : w.lastSeen ≤ req.timestamp) :
    ∀ w', mapGet (handleHeartbeat s id req).1.registeredWorkers id =
        some w' → w.lastSeen ≤ w'.lastSeen := by
  intro w' hw'
  have hget : mapGet (handleHeartbeat s id req).1.registeredWorkers id =
      some (heartbeatUpdate w req) := by
    rw [handleHeartbeat_state_of_get req hw]
    exact mapGet_mapSet_self _ _ _
  rw [hget] at hw'
  rw [← Option.some.inj hw']
  exact hts

/-- Witness for C7 (amended): a heartbeat with timestamp 200 on the record
registered at time 100 keeps lastSeen non-decreasing. -/
theorem handleHeartbeat_lastSeen_monotone_witness :
    (100 : Int) ≤ 200 ∧
    ∀ w', mapGet (handleHeartbeat
        (registerWorker (createMasterState "m" 0) reqA 100 5000).1 "a"
        { instanceId := "a", status := WorkerStatus.active,
          timestamp := 200 }).1.registeredWorkers "a" = some w' →
      (registrationWorkerInfo reqA 100).lastSeen ≤ w'.lastSeen :=
  ⟨by decide,
    handleHeartbeat_lastSeen_monotone
      (registerWorker (createMasterState "m" 0) reqA 100 5000).1 "a"
      { instanceId := "a", status := WorkerStatus.active, timestamp := 200 }
      (registrationWorkerInfo reqA 100) (by decide) (by decide)⟩

/-- Claim C8 counterexample: registering worker "a" over workspace path "/p"
that is already routed to worker "b", then deregistering "a", does NOT
restore the prior state: the routing index ends up empty instead of mapping
"/p" back to "b". -/
theorem register_deregister_roundtrip_counterexample :
    (deregisterWorker (registerWorker sRouting reqA 5 5000).1
        "a").workspaceRouting = [] ∧
    sRouting.workspaceRouting = [("/p", "b")] ∧
    deregisterWorker (registerWorker sRouting reqA 5 5000).1 "a" ≠
      sRouting := by decide

/-- Claim C8 (amended): register(x) followed by deregister(x.instanceId)
restores the exact prior registry state PROVIDED x.instanceId is not already
registered and x.workspacePath is not already routed; when the registration
overwrites an existing routing entry or record, the round trip loses it. -/
theorem register_deregister_roundtrip (s : MasterState)
    (req : RegistrationRequest) (now hb : Int)
    (hM1 : invariantM1 s)
    (hid : mapContains s.registeredWorkers req.instanceId = false)
    (hpath : mapContains s.workspaceRouting req.workspacePath = false) :
    deregisterWorker (registerWorker s req now hb).1 req.instanceId = s := by
  have hreg : mapSet s.registeredWorkers req.instanceId
      (registrationWorkerInfo req now) =
      s.registeredWorkers ++
        [(req.instanceId, registrationWorkerInfo req now)] := by
    unfold mapSet
    rw [if_neg (by simp [hid])]
  have hrout : mapSet s.workspaceRouting req.workspacePath req.instanceId =
      s.workspaceRouting ++ [(req.workspacePath, req.instanceId)] := by
    unfold mapSet
    rw [if_neg (by simp [hpath])]
  have hget : mapGet (s.registeredWorkers ++
      [(req.instanceId, registrationWorkerInfo req now)]) req.instanceId =
      some (registrationWorkerInfo req now) := by
    rw [← hreg]
    exact mapGet_mapSet_self _ _ _
  have h1 : mapDelete (s.registeredWorkers ++
      [(req.instanceId, registrationWorkerInfo req now)]) req.instanceId =
      s.registeredWorkers := by
    apply mapDelete_append_single
    intro p hp hpk
    have hcc := (mapContains_eq_true_iff s.registeredWorkers
      req.instanceId).mpr ⟨p, hp, hpk⟩
    rw [hid] at hcc
    exact Bool.false_ne_true hcc
  have h2 : (s.workspaceRouting ++
      [(req.workspacePath, req.instanceId)]).filter
      (fun p => p.2 != req.instanceId) = s.workspaceRouting := by
    rw [List.filter_append]
    have ha : s.workspaceRouting.filter (fun p => p.2 != req.instanceId) =
        s.workspaceRouting := by
      apply List.filter_eq_self.mpr
      intro p hp
      rw [bne_iff_ne]
      intro hpe
      have hc := hM1 p hp
      rw [hpe, hid] at hc
      exact Bool.false_ne_true hc
    rw [ha]
    have hb2 : [(req.workspacePath, req.instanceId)].filter
        (fun p => p.2 != req.instanceId) = [] := by simp
    rw [hb2, List.append_nil]
  rw [registerWorker_fst]
  unfold deregisterWorker
  simp only [hreg, hrout, hget]
  unfold cleanupWorkspaceRouting
  simp only [h1, h2]

/-- Witness for C8 (amended): registering fresh worker "c" on the fresh
path "/q" over the one-worker state and deregistering it restores that
state exactly. -/
theorem register_deregister_roundtrip_witness :
    deregisterWorker (registerWorker sRouting reqC 5 5000).1 "c" =
      sRouting :=
  register_deregister_roundtrip sRouting reqC 5 5000 (by decide) (by decide)
    (by decide)

/-- Claim C9 counterexample: two consecutive heartbeats from the registered
worker "a", the first reporting status active and the second status idle,
change the status field of the record as well — not only lastSeen. -/
theorem heartbeat_only_lastSeen_counterexample :
    (mapGet sHb1.registeredWorkers "a").map WorkerInfo.status =
      some WorkerStatus.active ∧
    (mapGet sHb2.registeredWorkers "a").map WorkerInfo.status =
      some WorkerStatus.idle ∧
    (mapGet sHb2.registeredWorkers "a").map WorkerInfo.status ≠
      (mapGet sHb1.registeredWorkers "a").map WorkerInfo.status := by decide

/-- Claim C9 (amended): a heartbeat for a registered worker keeps the set of
registered ids and the whole routing index unchanged, rewrites exactly the
lastSeen AND status fields of that record, leaves every other record
untouched, and repeating the very same heartbeat does not change the state
further; hence consecutive heartbeats are idempotent for membership, but a
status change in the second heartbeat also changes the record status. -/
theorem handleHeartbeat_frame (s : MasterState) (id : String)
    (req : HeartbeatRequest) (w : WorkerInfo)
    (hw : mapGet s.registeredWorkers id = some w) :
    (∀ k, mapContains (handleHeartbeat s id req).1.registeredWorkers k =
        mapContains s.registeredWorkers k) ∧
    (handleHeartbeat s id req).1.workspaceRouting = s.workspaceRouting ∧
    mapGet (handleHeartbeat s id req).1.registeredWorkers id =
      some { w with lastSeen := req.timestamp, status := req.status } ∧
    (∀ k, k ≠ id → mapGet (handleHeartbeat s id req).1.registeredWorkers k =
        mapGet s.registeredWorkers k) ∧
    (handleHeartbeat (handleHeartbeat s id req).1 id req).1 =
      (handleHeartbeat s id req).1 := by
  have hfst := handleHeartbeat_state_of_get req hw
  have hget : mapGet (handleHeartbeat s id req).1.registeredWorkers id =
      some (heartbeatUpdate w req) := by
    rw [hfst]
    exact mapGet_mapSet_self _ _ _
  refine ⟨?_, ?_, ?_, ?_, ?_⟩
  · intro k
    rw [hfst]
    exact mapContains_mapSet_eq_of_contains _
      (mapContains_of_mapGet_eq_some hw) k
  · rw [hfst]
  · exact hget
  · intro k hk
    rw [hfst]
    exact mapGet_mapSet_ne _ _ hk
  · rw [handleHeartbeat_state_of_get req hget, hfst]
    simp only [mapSet_mapSet_self]
    rfl

/-- Witness for C9 (amended): the frame conditions instantiated on the
concrete one-worker state and a status-idle heartbeat. -/
theorem handleHeartbeat_frame_witness :
    mapGet (handleHeartbeat sHb0 "a"
      { instanceId := "a", status := WorkerStatus.idle,
        timestamp := 30 }).1.registeredWorkers "a" =
      some { registrationWorkerInfo reqA 0 with
        lastSeen := 30, status := WorkerStatus.idle } ∧
    (handleHeartbeat sHb0 "a"
      { instanceId := "a", status := WorkerStatus.idle,
        timestamp := 30 }).1.workspaceRouting = sHb0.workspaceRouting :=
  have h := handleHeartbeat_frame sHb0 "a"
    { instanceId := "a", status := WorkerStatus.idle, timestamp := 30 }
    (registrationWorkerInfo reqA 0) (by decide)
  ⟨h.2.2.1, h.2.1⟩

/-- Claim C10 (confirmed): registering an instanceId that is already
registered replaces the whole record rather than merging: the stored record
is rebuilt from the request alone with registeredAt and lastSeen reset to
the current time and status forced to active, regardless of the previous
record, and the operation replies success for any request. -/
theorem registerWorker_overwrites (s : MasterState)
    (req : RegistrationRequest) (now hb : Int) (old : WorkerInfo)
    (_hold : mapGet s.registeredWorkers req.instanceId = some old) :
    mapGet (registerWorker s req now hb).1.registeredWorkers req.instanceId =
      some { instanceId := req.instanceId
             workspaceName := req.workspaceName
             workspacePath := req.workspacePath
             port := req.port
             capabilities := req.capabilities
             lastSeen := now
             status := WorkerStatus.active
             registeredAt := now
             version := req.version } ∧
    (registerWorker s req now hb).2.success = true := by
  refine ⟨?_, rfl⟩
  rw [registerWorker_fst]
  exact mapGet_mapSet_self _ _ _

/-- Witness for C10: re-registering worker "a" over its stale idle record
resets the record to the fresh request data with status active and the new
clock value. -/
theorem registerWorker_overwrites_witness :
    mapGet (registerWorker sOld reqA 100 5000).1.registeredWorkers "a" =
      some { instanceId := "a"
             workspaceName := "alpha"
             workspacePath := "/p"
             port := 9101
             capabilities := ["get_diagnostics"]
             lastSeen := 100
             status := WorkerStatus.active
             registeredAt := 100
             version := "0.1.0" } ∧
    (registerWorker sOld reqA 100 5000).2.success = true :=
  registerWorker_overwrites sOld reqA 100 5000 oldRecA (by decide)
